import Mathlib

/-
  Verification of the managed-buffer / channel-protocol / arena-skiplist core
  of sharky.c (src/sedgewick-alg-in-c/misc/src/sharky.c).

  Shallow embedding conventions:
  * machine bytes are Nat (0..255 in practice), buffer contents are List Nat;
  * pointers are Int: a buffer records its base address `addr` and the
    absolute writer pointer `writer_ptr`, exactly as the C struct does;
  * sizeof(char) = 1; on the 64-bit target sizeof(struct sharkybuf) = 48,
    sizeof(struct skiplist_node) = 8 (two ints), sizeof(void*) = 8;
  * fallible / possibly-blocking operations return Option;
  * loops whose termination is part of what is being proved take fuel.
-/

set_option maxRecDepth 20000

/-- Overwrite the bytes of `data` starting at offset `off` with `bytes`
(the effect of a store through a pointer into the region). -/
def writeBytes {α : Type} (data : List α) (off : Nat) (bytes : List α) : List α :=
  data.take off ++ bytes ++ data.drop (off + bytes.length)

theorem writeBytes_length {α : Type} (data : List α) (off : Nat) (bytes : List α)
    (h : off + bytes.length ≤ data.length) :
    (writeBytes data off bytes).length = data.length := by
  simp [writeBytes]
  omega

theorem writeBytes_nil {α : Type} (data : List α) (off : Nat) :
    writeBytes data off [] = data := by
  simp [writeBytes]

/-- Overwriting a region twice from the same offset keeps only the second
write, provided the second write covers the first. -/
theorem writeBytes_writeBytes {α : Type} (d : List α) (off : Nat) (b1 b2 : List α)
    (hb : b1.length ≤ b2.length) (hoff : off ≤ d.length) :
    writeBytes (writeBytes d off b1) off b2 = writeBytes d off b2 := by
  unfold writeBytes
  have htk : (d.take off).length = off := by simp; omega
  have h1 : List.take off (d.take off ++ b1 ++ d.drop (off + b1.length)) = d.take off := by
    rw [List.append_assoc]
    exact List.take_left' htk
  have h2 : List.drop (off + b2.length) (d.take off ++ b1 ++ d.drop (off + b1.length))
      = List.drop (off + b2.length) d := by
    calc List.drop (off + b2.length) ((d.take off ++ b1) ++ d.drop (off + b1.length))
        = List.drop ((d.take off ++ b1).length + (b2.length - b1.length))
            ((d.take off ++ b1) ++ d.drop (off + b1.length)) := by
          congr 1
          simp [htk]
          omega
      _ = List.drop (b2.length - b1.length) (d.drop (off + b1.length)) :=
          List.drop_append (b2.length - b1.length)
      _ = List.drop ((off + b1.length) + (b2.length - b1.length)) d :=
          List.drop_drop (b2.length - b1.length) (off + b1.length) d
      _ = List.drop (off + b2.length) d := by
          congr 1
          omega
  rw [h1, h2, List.append_assoc]

/- ===================== struct sharkybuf ===================== -/

def SHARKYBUF_STRATEGY_UNALLOCATED : Nat := 0
def SHARKYBUF_STRATEGY_MMAP : Nat := 1
def SHARKYBUF_STRATEGY_POSIX_MEMALIGN : Nat := 2
def SHARKYBUF_STRATEGY_MALLOC : Nat := 3

def MAX_NAME_LEN : Nat := 50
def MAX_ED_LIMIT : Nat := 10
def SKIPLIST_MAX_LEVELS : Nat := 30

/-- struct sharkybuf.  `data` holds the bytes of the region (so a
well-formed buffer has `data.length = len`); `addr` and `writer_ptr`
are absolute addresses as in the C struct. -/
structure Sharkybuf where
  strategy : Nat
  addr : Int
  len : Nat
  data : List Nat
  dirty : Bool
  writer_ptr : Int
  writer_len_remaining : Nat
deriving DecidableEq, Repr

instance : Inhabited Sharkybuf :=
  ⟨{ strategy := 0, addr := 0, len := 0, data := [], dirty := false,
     writer_ptr := 0, writer_len_remaining := 0 }⟩

/-- sb_create_mmap: zeroed region, strategy MMAP, writer head at start. -/
def sb_create_mmap (addr : Int) (len : Nat) : Sharkybuf :=
  { strategy := SHARKYBUF_STRATEGY_MMAP
    addr := addr
    len := len
    data := List.replicate len 0
    dirty := false
    writer_ptr := addr
    writer_len_remaining := len }

/-- sb_create_posix_memalign: zeroed region, strategy POSIX_MEMALIGN. -/
def sb_create_posix_memalign (addr : Int) (len : Nat) : Sharkybuf :=
  { strategy := SHARKYBUF_STRATEGY_POSIX_MEMALIGN
    addr := addr
    len := len
    data := List.replicate len 0
    dirty := false
    writer_ptr := addr
    writer_len_remaining := len }

/-- sb_create_malloc: zeroed region, strategy MALLOC. -/
def sb_create_malloc (addr : Int) (len : Nat) : Sharkybuf :=
  { strategy := SHARKYBUF_STRATEGY_MALLOC
    addr := addr
    len := len
    data := List.replicate len 0
    dirty := false
    writer_ptr := addr
    writer_len_remaining := len }

/-- sb_realloc: grow a MALLOC buffer to new_len at (possibly moved) base
new_addr; the tail is zero-filled and the writer pointer is shifted by
the same address delta the base moved by, the remaining count by the
length delta. -/
def sb_realloc (sb : Sharkybuf) (new_addr : Int) (new_len : Nat) : Sharkybuf :=
  let len_delta := new_len - sb.len
  let addr_delta := new_addr - sb.addr
  { sb with
    addr := new_addr
    len := new_len
    data := sb.data ++ List.replicate len_delta 0
    writer_ptr := sb.writer_ptr + addr_delta
    writer_len_remaining := sb.writer_len_remaining + len_delta }

/-- sb_dispose: strategy-dispatched release; MMAP goes through munmap,
POSIX_MEMALIGN and MALLOC through free, any other strategy aborts
(modelled as none).  All three valid paths clear the struct identically. -/
def sb_dispose (sb : Sharkybuf) : Option Sharkybuf :=
  if sb.strategy = SHARKYBUF_STRATEGY_MMAP ∨
     sb.strategy = SHARKYBUF_STRATEGY_POSIX_MEMALIGN ∨
     sb.strategy = SHARKYBUF_STRATEGY_MALLOC then
    some { strategy := SHARKYBUF_STRATEGY_UNALLOCATED
           addr := 0
           len := 0
           data := []
           dirty := false
           writer_ptr := 0
           writer_len_remaining := 0 }
  else none

/-- sb_wipe: zero the whole region, reset the writer head, clear dirty. -/
def sb_wipe (sb : Sharkybuf) : Sharkybuf :=
  { sb with
    data := List.replicate sb.len 0
    dirty := false
    writer_ptr := sb.addr
    writer_len_remaining := sb.len }

/-- sb_append_line_or_zeroes: snprintf(writer_ptr, writer_len_remaining,
"%s\n", line).  snprintf returns the untruncated length (line plus the
newline, excluding the NUL) and writes at most writer_len_remaining - 1
bytes plus a terminating NUL.  If the untruncated length is >= the
remaining space the whole remaining region is zeroed and 1 is returned;
otherwise the writer head advances past the newline (onto the NUL) and
0 is returned.  The dirty flag is set in both outcomes. -/
def sb_append_line_or_zeroes (sb : Sharkybuf) (line : List Nat) : Nat × Sharkybuf :=
  let msg := line ++ [10]
  let snp_rv := msg.length
  let off := (sb.writer_ptr - sb.addr).toNat
  let data1 := if sb.writer_len_remaining = 0 then sb.data
               else writeBytes sb.data off (msg.take (sb.writer_len_remaining - 1) ++ [0])
  if snp_rv ≥ sb.writer_len_remaining then
    (1, { sb with dirty := true
                  data := writeBytes data1 off (List.replicate sb.writer_len_remaining 0) })
  else
    (0, { sb with dirty := true
                  data := data1
                  writer_ptr := sb.writer_ptr + snp_rv
                  writer_len_remaining := sb.writer_len_remaining - snp_rv })

/-- One loop iteration of sb_recvbuf_read plus the loop itself: `chunks`
is the sequence of byte groups successive read(2) calls deliver (an
empty group is read returning 0, i.e. EOF).  A read never delivers more
than writer_len_remaining bytes, hence the take.  Returns the C return
value, the updated buffer and the undelivered chunks; none models the
process blocking forever because the modelled stream ran dry. -/
def sb_recvbuf_read : Sharkybuf → List (List Nat) → Option (Nat × Sharkybuf × List (List Nat))
  | _, [] => none
  | sb, chunk :: rest =>
    let recv := chunk.take sb.writer_len_remaining
    let off := (sb.writer_ptr - sb.addr).toNat
    let sb1 : Sharkybuf :=
      { sb with dirty := true
                data := writeBytes sb.data off recv
                writer_ptr := sb.writer_ptr + recv.length
                writer_len_remaining := sb.writer_len_remaining - recv.length }
    if recv.length = 0 then some (1, sb1, rest)
    else if sb1.writer_len_remaining = 0 then some (0, sb1, rest)
    else sb_recvbuf_read sb1 rest

/-- sb_sendbuf_vmsplice: gift the entire region (all len bytes, from the
base address) to the pipe, dispose of the buffer and replace it in place
with a fresh anonymous mapping of the same length at a fresh address.
Returns the transferred bytes and the replacement buffer. -/
def sb_sendbuf_vmsplice (sb : Sharkybuf) (new_addr : Int) : List Nat × Sharkybuf :=
  (sb.data, sb_create_mmap new_addr sb.len)

/-- Trailing-zero trimming done by sb_buf_to_stdout before writing. -/
def trimTrailingZeros (l : List Nat) : List Nat :=
  (l.reverse.dropWhile (fun b => b == 0)).reverse

/-- sb_buf_to_stdout: the bytes written to standard output (the region
minus any run of trailing null bytes); the struct itself is unchanged. -/
def sb_buf_to_stdout_output (sb : Sharkybuf) : List Nat :=
  trimTrailingZeros sb.data

/-- The writer-head invariant of a sharkybuf: the cursor lies inside the
region, cursor offset plus remaining space equals the length, i.e.
(writer_ptr - addr) + writer_len_remaining == len, and the modelled
byte list indeed has len bytes. -/
def sb_inv (sb : Sharkybuf) : Prop :=
  sb.addr ≤ sb.writer_ptr ∧
  sb.writer_ptr - sb.addr + (sb.writer_len_remaining : Int) = (sb.len : Int) ∧
  sb.data.length = sb.len

instance (sb : Sharkybuf) : Decidable (sb_inv sb) := by
  unfold sb_inv; infer_instance

/- ===================== hamming: candidate enumeration ===================== -/

/-- Write a single entry of a list (array element assignment). -/
def setAt {α : Type} (l : List α) (i : Nat) (v : α) : List α :=
  writeBytes l i [v]

/-- Column-successor scan of hamming: starting from i = ed - 1 seek
backwards for an edit position whose column is not at its maximum, i.e.
editcols[i] < name_len - (ed - i) (int arithmetic as in the source).
The argument is i + 1 so that 0 encodes i having fallen below zero. -/
def comboSeek (name_len ed : Nat) (cols : List Nat) : Nat → Option Nat
  | 0 => none
  | i + 1 =>
    if (cols.getD i 0 : Int) < (name_len : Int) - ((ed : Int) - (i : Int)) then some i
    else comboSeek name_len ed cols i

/-- After finding index i, hamming increments editcols[i] and sets the
following columns incrementally (editcols[k] = editcols[k-1] + 1). -/
def comboFill (cols : List Nat) (i ed : Nat) : List Nat :=
  cols.take i ++ (List.range (ed - i)).map (fun k => cols.getD i 0 + 1 + k)

/-- One column-cycling step of hamming: the next choice of edit columns,
or none when every position is at its maximum (the ed-loop round ends). -/
def nextCombo (name_len ed : Nat) (cols : List Nat) : Option (List Nat) :=
  match comboSeek name_len ed cols ed with
  | none => none
  | some i => some (comboFill cols i ed)

/-- All column choices visited for a given ed, starting from the initial
editcols[j] = j state; fuel bounds the loop. -/
def combos (name_len ed : Nat) : Nat → List Nat → List (List Nat)
  | 0, _ => []
  | fuel + 1, cols =>
    cols :: match nextCombo name_len ed cols with
            | none => []
            | some c => combos name_len ed fuel c

/-- Character-odometer step of hamming ("select next set of chars"):
from j = ed - 1 downwards, a position below 'z' (122) is incremented
and the scan stops; a position at 'z' wraps to 'a' (97) and the scan
moves left; none when the whole odometer wrapped. -/
def nextChars : List Nat → Nat → Option (List Nat)
  | _, 0 => none
  | cs, j + 1 =>
    if cs.getD j 0 < 122 then some (setAt cs j (cs.getD j 0 + 1))
    else nextChars (setAt cs j 97) j

/-- All character tuples visited for a given ed, starting from all-'a'. -/
def charTuples (ed : Nat) : Nat → List Nat → List (List Nat)
  | 0, _ => []
  | fuel + 1, cs =>
    cs :: match nextChars cs ed with
          | none => []
          | some c => charTuples ed fuel c

/-- The emitted candidate for one (columns, chars) pair: hamming rewrites
every chosen column of its working copy of name with the corresponding
character before emitting (name_temp[editcols[edit]] = c[edit] for each
edit in order), so the emitted string is name with those edits applied. -/
def applyEdits (name : List Nat) (cols cs : List Nat) : List Nat :=
  (List.zip cols cs).foldl (fun acc p => setAt acc p.1 p.2) name

/-- The full candidate sequence hamming emits, in emission order:
for ed = 1 .. max_ed, for each column choice, for each character tuple. -/
def hammingCandidates (max_ed : Nat) (name : List Nat) (fuel : Nat) : List (List Nat) :=
  (List.range max_ed).flatMap (fun e =>
    (combos name.length (e + 1) fuel (List.range (e + 1))).flatMap (fun cols =>
      (charTuples (e + 1) fuel (List.replicate (e + 1) 97)).map (applyEdits name cols)))

/- ===================== hamming: emission through the buffer ===================== -/

/-- The append-retry loop around one candidate: append; on insufficient
space flush the (zero-padded) buffer with sb_sendbuf_vmsplice and retry
the same candidate with the replacement buffer.  Returns the flushed
chunks (in flush order) and the buffer after the successful append;
fuel bounds the retries (none = the loop did not finish in fuel rounds). -/
def appendRetryLoop : Nat → Sharkybuf → List Nat → Option (List (List Nat) × Sharkybuf)
  | 0, _, _ => none
  | fuel + 1, sb, line =>
    let r := sb_append_line_or_zeroes sb line
    if r.1 = 0 then some ([], r.2)
    else
      let f := sb_sendbuf_vmsplice r.2 0
      match appendRetryLoop fuel f.2 line with
      | none => none
      | some (chs, sb2) => some (f.1 :: chs, sb2)

/-- Emit every candidate in order through the append-retry loop,
collecting all flushed chunks. -/
def hammingEmitAll (fuel : Nat) : Sharkybuf → List (List Nat) → Option (List (List Nat) × Sharkybuf)
  | sb, [] => some ([], sb)
  | sb, line :: rest =>
    match appendRetryLoop fuel sb line with
    | none => none
    | some (chs, sb1) =>
      match hammingEmitAll fuel sb1 rest with
      | none => none
      | some (chs2, sb2) => some (chs ++ chs2, sb2)

/-- hamming end to end: create a one-page anonymous mapping, emit every
candidate, and finally flush the partially-filled page iff it is dirty.
Returns the chunk sequence written to the pipe. -/
def hammingRun (max_ed : Nat) (name : List Nat) (page_size fuel : Nat) : Option (List (List Nat)) :=
  let sb := sb_create_mmap 0 page_size
  match hammingEmitAll fuel sb (hammingCandidates max_ed name fuel) with
  | none => none
  | some (chunks, sb1) =>
    if sb1.dirty then some (chunks ++ [(sb_sendbuf_vmsplice sb1 0).1])
    else some chunks

/- ===================== catlines: the consumer ===================== -/

/-- The catlines loop: fill the buffer from the pipe, write the region
minus trailing nulls to stdout, wipe, and stop once EOF was reported.
Returns the bytes written to stdout. -/
def catlinesLoop : Nat → Sharkybuf → List (List Nat) → Option (List Nat)
  | 0, _, _ => none
  | fuel + 1, sb, chunks =>
    match sb_recvbuf_read sb chunks with
    | none => none
    | some (rv, sb1, rest) =>
      let out := sb_buf_to_stdout_output sb1
      let sb2 := sb_wipe sb1
      if rv = 1 then some out
      else
        match catlinesLoop fuel sb2 rest with
        | none => none
        | some out2 => some (out ++ out2)

/-- catlines: one-page aligned buffer, then the fill/emit/wipe loop. -/
def catlinesRun (chunks : List (List Nat)) (page_size fuel : Nat) : Option (List Nat) :=
  catlinesLoop fuel (sb_create_posix_memalign 0 page_size) chunks

/-- Producer and consumer composed over the pipe: the consumer receives
the producer's flushed chunks in order, one read delivery per chunk,
followed by end-of-stream once the producer has closed its endpoint. -/
def pipelineOutput (max_ed : Nat) (name : List Nat) (page_size fuel : Nat) : Option (List Nat) :=
  match hammingRun max_ed name page_size fuel with
  | none => none
  | some chunks => catlinesRun (chunks ++ [[]]) page_size fuel

/- ===================== expected enumeration for the C1 scenario ===================== -/

def bobName : List Nat := [98, 111, 98]

/-- The full single-position-substitution enumeration over a..z for each
position of name, position-major, character-minor. -/
def subsEnum (name : List Nat) : List (List Nat) :=
  (List.range name.length).flatMap (fun p =>
    (List.range 26).map (fun k => setAt name p (97 + k)))

/-- Split a byte stream into lines at the newline byte; a final segment
not ended by a newline (a truncated line) is still reported. -/
def linesOfAux : List Nat → List Nat → List (List Nat)
  | [], cur => if cur.isEmpty then [] else [cur]
  | 10 :: rest, cur => cur :: linesOfAux rest []
  | b :: rest, cur => linesOfAux rest (cur ++ [b])

def linesOf (l : List Nat) : List (List Nat) :=
  linesOfAux l []

/-- Lexicographic comparison of byte strings, for sorting lines. -/
def lexLe : List Nat → List Nat → Bool
  | [], _ => true
  | _ :: _, [] => false
  | a :: as, b :: bs => if a < b then true else if a = b then lexLe as bs else false

def insertSorted (x : List Nat) : List (List Nat) → List (List Nat)
  | [] => [x]
  | y :: ys => if lexLe x y then x :: y :: ys else y :: insertSorted x ys

def sortLines : List (List Nat) → List (List Nat)
  | [] => []
  | x :: xs => insertSorted x (sortLines xs)

/- ===================== arena pool / skiplist (sdict_sl_*) ===================== -/

/-- Byte sizes of the 64-bit target: struct sharkybuf is 48 bytes,
the two-int header of struct skiplist_node is 8 bytes, a void pointer
is 8 bytes. -/
def sizeofSharkybuf : Nat := 48

def skiplistNodeHeaderSize : Nat := 8

def sizeofVoidPtr : Nat := 8

/-- struct skiplist_node at record level: the two counts and the
flexible tail of linkptr_ct + dataptr_ct pointer slots.  A slot holds
a node reference (an index into the arena's node store) or none for a
NULL produced by the zeroed segment memory. -/
structure SkiplistNode where
  linkptr_ct : Nat
  dataptr_ct : Nat
  ptr : List (Option Nat)
deriving DecidableEq, Repr

instance : Inhabited SkiplistNode :=
  ⟨{ linkptr_ct := 0, dataptr_ct := 0, ptr := [] }⟩

/-- Bookkeeping of one arena segment (a struct sharkybuf of strategy
MALLOC used as bump storage for nodes).  The byte content is abstracted
to the ids of the nodes carved out of it, in allocation order; len and
writer_len_remaining mirror the C fields. -/
structure SegState where
  len : Nat
  writer_len_remaining : Nat
  nodes : List Nat
deriving DecidableEq, Repr

/-- The skiplist-related part of struct sdict.  The directory buffer
sl_sbuflist_sbuf is kept as its len / writer_len_remaining bookkeeping;
the descriptor written at index i occupies directory bytes
[i * sizeofSharkybuf, (i+1) * sizeofSharkybuf).  `store` is the node
store; node handles are indices into it. -/
structure SdictSl where
  dir_len : Nat
  dir_writer_len_remaining : Nat
  sl_sbuflist : List SegState
  sl_sbuflist_entry_ct : Nat
  store : List SkiplistNode
  sl_headnode : Option Nat
  sl_sentinel : Option Nat
deriving DecidableEq, Repr

def emptySeg : SegState := { len := 0, writer_len_remaining := 0, nodes := [] }

/-- sdict_sl_realloc: double the directory buffer via sb_realloc
(new_len = 2 * len, remaining grows by the length delta). -/
def sdict_sl_realloc (sd : SdictSl) : SdictSl :=
  let new_len := sd.dir_len * 2
  { sd with
    dir_len := new_len
    dir_writer_len_remaining := sd.dir_writer_len_remaining + (new_len - sd.dir_len) }

/-- sdict_sl_allocnode: bump-allocate one node of
skiplistNodeHeaderSize + (linkptr_ct + dataptr_ct) * sizeofVoidPtr bytes
from the last segment.  If that segment lacks room: first double the
directory if its writer_len_remaining cannot hold one more sharkybuf
descriptor, then append one fresh page-sized MALLOC segment at index
entry_ct and bump entry_ct.  (As in the source, nothing decrements the
directory writer_len_remaining when the new descriptor is written.)
The node's slots start out none: the segment bytes are zero-filled.
Returns the node handle and the new state. -/
def sdict_sl_allocnode (sd : SdictSl) (linkptr_ct dataptr_ct : Nat) (page_size : Nat) :
    Nat × SdictSl :=
  let node_size := skiplistNodeHeaderSize + (linkptr_ct + dataptr_ct) * sizeofVoidPtr
  let sd :=
    if (sd.sl_sbuflist.getD (sd.sl_sbuflist_entry_ct - 1) emptySeg).writer_len_remaining
        < node_size then
      let sd := if sd.dir_writer_len_remaining < sizeofSharkybuf then sdict_sl_realloc sd
                else sd
      { sd with
        sl_sbuflist := sd.sl_sbuflist ++
          [{ len := page_size, writer_len_remaining := page_size, nodes := [] }]
        sl_sbuflist_entry_ct := sd.sl_sbuflist_entry_ct + 1 }
    else sd
  let nodeId := sd.store.length
  let node : SkiplistNode :=
    { linkptr_ct := linkptr_ct
      dataptr_ct := dataptr_ct
      ptr := List.replicate (linkptr_ct + dataptr_ct) none }
  let idx := sd.sl_sbuflist_entry_ct - 1
  let seg := sd.sl_sbuflist.getD idx emptySeg
  let seg1 := { seg with
                writer_len_remaining := seg.writer_len_remaining - node_size
                nodes := seg.nodes ++ [nodeId] }
  (nodeId, { sd with
             sl_sbuflist := setAt sd.sl_sbuflist idx seg1
             store := sd.store ++ [node] })

/-- sdict_sl_init: allocate the page-sized directory buffer, create the
first page-sized segment at index 0 and bump the directory writer past
its descriptor, allocate the head node (SKIPLIST_MAX_LEVELS links, no
data slots) and the sentinel (no links, no data slots), then point every
one of the head's linkptr_ct + dataptr_ct slots at the sentinel. -/
def sdict_sl_init (page_size : Nat) : SdictSl :=
  let sd : SdictSl :=
    { dir_len := page_size
      dir_writer_len_remaining := page_size
      sl_sbuflist := []
      sl_sbuflist_entry_ct := 0
      store := []
      sl_headnode := none
      sl_sentinel := none }
  let seg0 : SegState := { len := page_size, writer_len_remaining := page_size, nodes := [] }
  let sd := { sd with
              sl_sbuflist := sd.sl_sbuflist ++ [seg0]
              sl_sbuflist_entry_ct := sd.sl_sbuflist_entry_ct + 1 }
  let sd := { sd with
              dir_writer_len_remaining := sd.dir_writer_len_remaining - sizeofSharkybuf }
  let hp := sdict_sl_allocnode sd SKIPLIST_MAX_LEVELS 0 page_size
  let sd := { hp.2 with sl_headnode := some hp.1 }
  let sp := sdict_sl_allocnode sd 0 0 page_size
  let sd := { sp.2 with sl_sentinel := some sp.1 }
  let head := sd.store.getD hp.1 default
  let head1 :=
    { head with
      ptr := (List.range (head.linkptr_ct + head.dataptr_ct)).foldl
               (fun p i => setAt p i (some sp.1)) head.ptr }
  { sd with store := setAt sd.store hp.1 head1 }

/-- A run of allocate_record calls that each request a node of exactly
one page (511 pointer slots on the 64-bit target), forcing one fresh
segment per call, starting from a freshly initialized skiplist with
4096-byte pages. -/
def sdictAllocRun : Nat → SdictSl
  | 0 => sdict_sl_init 4096
  | n + 1 => (sdict_sl_allocnode (sdictAllocRun n) 511 0 4096).2

/- ===================== main: argument handling and role split ===================== -/

inductive ChildRole
  | checkwords
  | catlines
deriving DecidableEq, Repr

/-- The state of main's dictpath variable after the argument switch:
its pointer value and whether the program ever assigned it.  argc = 4
assigns argv[3] and falls through; argc = 3 parses only max_ed and name,
leaving dictpath holding whatever was on the stack (`garbage`); any
other argc prints usage and returns before the fork. -/
structure MainArgState where
  dictpath : Int
  dictpathAssigned : Bool
deriving DecidableEq, Repr

def mainParseArgs (argc : Nat) (argv3 : Int) (garbage : Int) : Option MainArgState :=
  match argc with
  | 4 => some { dictpath := argv3, dictpathAssigned := true }
  | 3 => some { dictpath := garbage, dictpathAssigned := false }
  | _ => none

/-- The child's role branch: if (dictpath) checkwords else catlines. -/
def childRole (st : MainArgState) : ChildRole :=
  if st.dictpath ≠ 0 then ChildRole.checkwords else ChildRole.catlines

/- ===================== helper lemmas ===================== -/

/-- sb_append_line_or_zeroes with its lets zeta-reduced, as an explicit
two-branch equation (the shape used by the proofs below). -/
theorem sb_append_eq (sb : Sharkybuf) (line : List Nat) :
    sb_append_line_or_zeroes sb line =
      if (line ++ [10]).length ≥ sb.writer_len_remaining then
        (1, { sb with
              dirty := true
              data := writeBytes
                (if sb.writer_len_remaining = 0 then sb.data
                 else writeBytes sb.data (sb.writer_ptr - sb.addr).toNat
                        ((line ++ [10]).take (sb.writer_len_remaining - 1) ++ [0]))
                (sb.writer_ptr - sb.addr).toNat
                (List.replicate sb.writer_len_remaining 0) })
      else
        (0, { sb with
              dirty := true
              data := (if sb.writer_len_remaining = 0 then sb.data
                       else writeBytes sb.data (sb.writer_ptr - sb.addr).toNat
                              ((line ++ [10]).take (sb.writer_len_remaining - 1) ++ [0]))
              writer_ptr := sb.writer_ptr + (line ++ [10]).length
              writer_len_remaining := sb.writer_len_remaining - (line ++ [10]).length }) :=
  rfl

/-- Under the invariant, the writer offset plus the remaining space is
the byte count of the region. -/
theorem sb_inv_off (sb : Sharkybuf) (h : sb_inv sb) :
    (sb.writer_ptr - sb.addr).toNat + sb.writer_len_remaining = sb.data.length := by
  obtain ⟨ha, hlen, hdata⟩ := h
  omega

/-- Appending never changes the recorded length of the region. -/
theorem sb_append_len (sb : Sharkybuf) (line : List Nat) :
    (sb_append_line_or_zeroes sb line).2.len = sb.len := by
  rw [sb_append_eq]
  split <;> rfl

/-- Appending never changes the base address. -/
theorem sb_append_addr (sb : Sharkybuf) (line : List Nat) :
    (sb_append_line_or_zeroes sb line).2.addr = sb.addr := by
  rw [sb_append_eq]
  split <;> rfl

/-- Under the invariant, appending preserves the byte count of the data. -/
theorem sb_append_data_length (sb : Sharkybuf) (line : List Nat) (h : sb_inv sb) :
    (sb_append_line_or_zeroes sb line).2.data.length = sb.data.length := by
  have hoff := sb_inv_off sb h
  rw [sb_append_eq]
  by_cases hz : sb.writer_len_remaining = 0
  · split
    · simp [hz, writeBytes_nil]
    · rename_i hlt
      exfalso
      simp [hz] at hlt
  · have hw1 : ((line ++ [10]).take (sb.writer_len_remaining - 1) ++ [0]).length
        ≤ sb.writer_len_remaining := by
      simp
      omega
    have hd1 : (writeBytes sb.data (sb.writer_ptr - sb.addr).toNat
        ((line ++ [10]).take (sb.writer_len_remaining - 1) ++ [0])).length
        = sb.data.length := by
      apply writeBytes_length
      omega
    split
    · have hb : (sb.writer_ptr - sb.addr).toNat + (List.replicate sb.writer_len_remaining 0).length
          ≤ (writeBytes sb.data (sb.writer_ptr - sb.addr).toNat
              ((line ++ [10]).take (sb.writer_len_remaining - 1) ++ [0])).length := by
        rw [hd1]
        simp only [List.length_replicate]
        omega
      dsimp only
      rw [writeBytes_length _ _ _ hb, hd1]
    · dsimp only
      exact hd1

/-- Appending preserves the writer-head invariant (both outcomes). -/
theorem sb_append_inv (sb : Sharkybuf) (line : List Nat) (h : sb_inv sb) :
    sb_inv (sb_append_line_or_zeroes sb line).2 := by
  have hdl := sb_append_data_length sb line h
  obtain ⟨ha, hlen, hdata⟩ := h
  rw [sb_append_eq] at hdl ⊢
  by_cases hge : (line ++ [10]).length ≥ sb.writer_len_remaining
  · rw [if_pos hge] at hdl ⊢
    exact ⟨ha, hlen, by rw [hdl]; exact hdata⟩
  · rw [if_neg hge] at hdl ⊢
    have hsnp : (line ++ [10]).length ≤ sb.writer_len_remaining := by omega
    refine ⟨?_, ?_, ?_⟩
    · dsimp only
      omega
    · dsimp only
      omega
    · exact hdl.trans hdata

/-- Reading from the channel preserves the writer-head invariant. -/
theorem sb_recvbuf_read_inv :
    ∀ (chunks : List (List Nat)) (sb : Sharkybuf) (r : Nat × Sharkybuf × List (List Nat)),
      sb_inv sb → sb_recvbuf_read sb chunks = some r → sb_inv r.2.1
  | [], sb, r, _, h => by simp [sb_recvbuf_read] at h
  | chunk :: rest, sb, r, hinv, h => by
    have hoff := sb_inv_off sb hinv
    obtain ⟨ha, hlen, hdata⟩ := hinv
    have hrecv : (chunk.take sb.writer_len_remaining).length ≤ sb.writer_len_remaining := by
      simp
    have hstep : sb_inv
        { sb with dirty := true
                  data := writeBytes sb.data (sb.writer_ptr - sb.addr).toNat
                            (chunk.take sb.writer_len_remaining)
                  writer_ptr := sb.writer_ptr + (chunk.take sb.writer_len_remaining).length
                  writer_len_remaining :=
                    sb.writer_len_remaining - (chunk.take sb.writer_len_remaining).length } := by
      refine ⟨?_, ?_, ?_⟩
      · dsimp only
        omega
      · dsimp only
        omega
      · dsimp only
        rw [writeBytes_length]
        · exact hdata
        · omega
    unfold sb_recvbuf_read at h
    dsimp only at h
    split at h
    · exact (Option.some.inj h) ▸ hstep
    · split at h
      · exact (Option.some.inj h) ▸ hstep
      · exact sb_recvbuf_read_inv rest _ r hstep h

/- ===================== claim theorems ===================== -/

/-- C3: for every Managed Buffer, writer_cursor + writer_remaining ==
length — i.e. (writer_ptr - addr) + writer_len_remaining == len — holds
immediately after creation by any of the three strategies and is
preserved by sb_realloc (under its asserted precondition
new_len > len), sb_wipe, sb_append_line_or_zeroes (both outcomes),
sb_recvbuf_read, sb_sendbuf_vmsplice, and sb_dispose. -/
theorem sharkybuf_invariant_preserved :
    (∀ a l, sb_inv (sb_create_mmap a l)) ∧
    (∀ a l, sb_inv (sb_create_posix_memalign a l)) ∧
    (∀ a l, sb_inv (sb_create_malloc a l)) ∧
    (∀ sb na nl, sb.len < nl → sb_inv sb → sb_inv (sb_realloc sb na nl)) ∧
    (∀ sb, sb_inv (sb_wipe sb)) ∧
    (∀ sb line, sb_inv sb → sb_inv (sb_append_line_or_zeroes sb line).2) ∧
    (∀ sb chunks r, sb_inv sb → sb_recvbuf_read sb chunks = some r → sb_inv r.2.1) ∧
    (∀ sb a, sb_inv (sb_sendbuf_vmsplice sb a).2) ∧
    (∀ sb r, sb_dispose sb = some r → sb_inv r) := by
  refine ⟨?_, ?_, ?_, ?_, ?_, ?_, ?_, ?_, ?_⟩
  · intro a l
    exact ⟨le_refl a, by simp [sb_create_mmap], by simp [sb_create_mmap]⟩
  · intro a l
    exact ⟨le_refl a, by simp [sb_create_posix_memalign], by simp [sb_create_posix_memalign]⟩
  · intro a l
    exact ⟨le_refl a, by simp [sb_create_malloc], by simp [sb_create_malloc]⟩
  · intro sb na nl hlt h
    obtain ⟨ha, hlen, hdata⟩ := h
    refine ⟨?_, ?_, ?_⟩
    · dsimp only [sb_realloc]
      omega
    · dsimp only [sb_realloc]
      push_cast
      omega
    · dsimp only [sb_realloc]
      simp only [List.length_append, List.length_replicate]
      omega
  · intro sb
    exact ⟨le_refl _, by simp [sb_wipe], by simp [sb_wipe]⟩
  · intro sb line h
    exact sb_append_inv sb line h
  · intro sb chunks r h heq
    exact sb_recvbuf_read_inv chunks sb r h heq
  · intro sb a
    exact ⟨le_refl a, by simp [sb_sendbuf_vmsplice, sb_create_mmap],
           by simp [sb_sendbuf_vmsplice, sb_create_mmap]⟩
  · intro sb r heq
    unfold sb_dispose at heq
    split at heq
    · cases Option.some.inj heq
      exact ⟨le_refl 0, by simp, by simp⟩
    · cases heq

/-- Witness for C3: the invariant-preservation conjuncts applied at a
concrete buffer, line, chunk stream and realloc. -/
theorem sharkybuf_invariant_preserved_witness :
    sb_inv (sb_realloc (sb_create_malloc 5 4) 100 8) ∧
    sb_inv (sb_append_line_or_zeroes (sb_create_mmap 0 16) [97, 98]).2 ∧
    sb_inv (sb_recvbuf_read (sb_create_posix_memalign 0 4) [[1, 2], []]).iget.2.1 :=
  ⟨sharkybuf_invariant_preserved.2.2.2.1 (sb_create_malloc 5 4) 100 8 (by decide)
     (sharkybuf_invariant_preserved.2.2.1 5 4),
   sharkybuf_invariant_preserved.2.2.2.2.2.1 (sb_create_mmap 0 16) [97, 98]
     (sharkybuf_invariant_preserved.1 0 16),
   sharkybuf_invariant_preserved.2.2.2.2.2.2.1 (sb_create_posix_memalign 0 4) [[1, 2], []]
     (sb_recvbuf_read (sb_create_posix_memalign 0 4) [[1, 2], []]).iget
     (sharkybuf_invariant_preserved.2.1 0 4) (by decide)⟩

/-- The state equation of a successful append: when the line plus its
newline fits strictly inside the remaining space, the message and its
string terminator are written at the cursor and the writer head
advances past the newline. -/
theorem sb_append_success_state (sb : Sharkybuf) (line : List Nat)
    (hlt : (line ++ [10]).length < sb.writer_len_remaining) :
    sb_append_line_or_zeroes sb line =
      (0, { sb with
            dirty := true
            data := writeBytes sb.data (sb.writer_ptr - sb.addr).toNat (line ++ [10] ++ [0])
            writer_ptr := sb.writer_ptr + (line ++ [10]).length
            writer_len_remaining := sb.writer_len_remaining - (line ++ [10]).length }) := by
  rw [sb_append_eq, if_neg (by omega), if_neg (by omega)]
  rw [List.take_of_length_le (by omega)]

/-- The state equation of a failed append: when the line plus its
newline does not fit strictly, the whole remaining region is zeroed and
everything else in the struct except the dirty flag is left as it was. -/
theorem sb_append_fail_state (sb : Sharkybuf) (line : List Nat) (h : sb_inv sb)
    (hge : (line ++ [10]).length ≥ sb.writer_len_remaining) :
    sb_append_line_or_zeroes sb line =
      (1, { sb with
            dirty := true
            data := writeBytes sb.data (sb.writer_ptr - sb.addr).toNat
                      (List.replicate sb.writer_len_remaining 0) }) := by
  have hoff := sb_inv_off sb h
  rw [sb_append_eq, if_pos hge]
  by_cases hz : sb.writer_len_remaining = 0
  · rw [if_pos hz]
  · rw [if_neg hz]
    have hb : ((line ++ [10]).take (sb.writer_len_remaining - 1) ++ [0]).length
        ≤ (List.replicate sb.writer_len_remaining 0).length := by
      simp
      omega
    have ho : (sb.writer_ptr - sb.addr).toNat ≤ sb.data.length := by omega
    rw [writeBytes_writeBytes _ _ _ _ hb ho]

/-- C4: a line whose encoded form including the terminator exactly
equals writer_len_remaining reports insufficient space (returns 1) and
leaves the entire remaining region from the cursor onward zero-filled,
with no partial content retained. -/
theorem append_exact_fit_insufficient (sb : Sharkybuf) (line : List Nat)
    (h : sb_inv sb) (hfit : line.length + 1 = sb.writer_len_remaining) :
    (sb_append_line_or_zeroes sb line).1 = 1 ∧
    (sb_append_line_or_zeroes sb line).2.data =
      writeBytes sb.data (sb.writer_ptr - sb.addr).toNat
        (List.replicate sb.writer_len_remaining 0) := by
  have hge : (line ++ [10]).length ≥ sb.writer_len_remaining := by
    simp
    omega
  rw [sb_append_fail_state sb line h hge]
  exact ⟨rfl, rfl⟩

/-- Witness for C4: a fresh 4-byte heap buffer and the 3-byte line
"abc", whose encoded form is exactly 4 bytes. -/
theorem append_exact_fit_insufficient_witness :
    (sb_append_line_or_zeroes (sb_create_malloc 0 4) [97, 98, 99]).1 = 1 ∧
    (sb_append_line_or_zeroes (sb_create_malloc 0 4) [97, 98, 99]).2.data =
      writeBytes (sb_create_malloc 0 4).data
        ((sb_create_malloc 0 4).writer_ptr - (sb_create_malloc 0 4).addr).toNat
        (List.replicate (sb_create_malloc 0 4).writer_len_remaining 0) :=
  append_exact_fit_insufficient (sb_create_malloc 0 4) [97, 98, 99] (by decide) (by decide)

/-- C9: whenever sb_append_line_or_zeroes reports insufficient space,
the writer_ptr and writer_len_remaining (and strategy, base address and
length) are exactly as they were before the call; only the remaining
region's bytes are zeroed and the dirty flag is set. -/
theorem append_insufficient_restores_cursor (sb : Sharkybuf) (line : List Nat)
    (h : sb_inv sb) (h1 : (sb_append_line_or_zeroes sb line).1 = 1) :
    (sb_append_line_or_zeroes sb line).2.writer_ptr = sb.writer_ptr ∧
    (sb_append_line_or_zeroes sb line).2.writer_len_remaining = sb.writer_len_remaining ∧
    (sb_append_line_or_zeroes sb line).2.addr = sb.addr ∧
    (sb_append_line_or_zeroes sb line).2.strategy = sb.strategy ∧
    (sb_append_line_or_zeroes sb line).2.len = sb.len ∧
    (sb_append_line_or_zeroes sb line).2.dirty = true ∧
    (sb_append_line_or_zeroes sb line).2.data =
      writeBytes sb.data (sb.writer_ptr - sb.addr).toNat
        (List.replicate sb.writer_len_remaining 0) := by
  by_cases hge : (line ++ [10]).length ≥ sb.writer_len_remaining
  · rw [sb_append_fail_state sb line h hge]
    exact ⟨rfl, rfl, rfl, rfl, rfl, rfl, rfl⟩
  · exfalso
    rw [sb_append_eq, if_neg hge] at h1
    simp at h1

/-- Witness for C9: a fresh 4-byte anonymous mapping and a 4-byte line
"abcd", whose encoded form (5 bytes) does not fit. -/
theorem append_insufficient_restores_cursor_witness :
    (sb_append_line_or_zeroes (sb_create_mmap 7 4) [97, 98, 99, 100]).2.writer_ptr
        = (sb_create_mmap 7 4).writer_ptr ∧
    (sb_append_line_or_zeroes (sb_create_mmap 7 4) [97, 98, 99, 100]).2.writer_len_remaining
        = (sb_create_mmap 7 4).writer_len_remaining ∧
    (sb_append_line_or_zeroes (sb_create_mmap 7 4) [97, 98, 99, 100]).2.addr
        = (sb_create_mmap 7 4).addr ∧
    (sb_append_line_or_zeroes (sb_create_mmap 7 4) [97, 98, 99, 100]).2.strategy
        = (sb_create_mmap 7 4).strategy ∧
    (sb_append_line_or_zeroes (sb_create_mmap 7 4) [97, 98, 99, 100]).2.len
        = (sb_create_mmap 7 4).len ∧
    (sb_append_line_or_zeroes (sb_create_mmap 7 4) [97, 98, 99, 100]).2.dirty = true ∧
    (sb_append_line_or_zeroes (sb_create_mmap 7 4) [97, 98, 99, 100]).2.data =
      writeBytes (sb_create_mmap 7 4).data
        ((sb_create_mmap 7 4).writer_ptr - (sb_create_mmap 7 4).addr).toNat
        (List.replicate (sb_create_mmap 7 4).writer_len_remaining 0) :=
  append_insufficient_restores_cursor (sb_create_mmap 7 4) [97, 98, 99, 100]
    (by decide) (by decide)

/-- Appending "abc" and then "defg" to any buffer with at least 10
bytes of remaining space succeeds twice and advances the writer head by
exactly 9 bytes (the length of "abc\n" plus "defg\n"). -/
theorem append_abc_defg (sb : Sharkybuf) (h : 10 ≤ sb.writer_len_remaining) :
    (sb_append_line_or_zeroes sb [97, 98, 99]).1 = 0 ∧
    (sb_append_line_or_zeroes (sb_append_line_or_zeroes sb [97, 98, 99]).2
       [100, 101, 102, 103]).1 = 0 ∧
    (sb_append_line_or_zeroes (sb_append_line_or_zeroes sb [97, 98, 99]).2
       [100, 101, 102, 103]).2.writer_ptr = sb.writer_ptr + 9 ∧
    (sb_append_line_or_zeroes (sb_append_line_or_zeroes sb [97, 98, 99]).2
       [100, 101, 102, 103]).2.writer_len_remaining = sb.writer_len_remaining - 9 := by
  rw [sb_append_success_state sb [97, 98, 99] (by simp; omega)]
  dsimp only
  rw [sb_append_success_state _ [100, 101, 102, 103] (by simp; omega)]
  refine ⟨rfl, rfl, ?_, ?_⟩
  · dsimp only
    simp
    omega
  · dsimp only
    simp
    omega

/-- C5 counterexample: on a fresh 16-byte heap buffer at base address 0,
appending "abc" then "defg" leaves the writer pointer at offset 9, not
at offset 8 as the claim states ("advanced by 8 bytes"): "abc\n" is 4
bytes and "defg\n" is 5. -/
theorem append_abc_defg_not_eight :
    ¬ ((sb_append_line_or_zeroes (sb_append_line_or_zeroes (sb_create_malloc 0 16)
          [97, 98, 99]).2 [100, 101, 102, 103]).2.writer_ptr
        = (sb_create_malloc 0 16).addr + 8) := by
  decide

/-- C5 (amended): for every freshly created buffer (any strategy) with
length at least 10, appending "abc" then "defg" succeeds twice and
leaves the cursor exactly after "abc\ndefg\n", i.e. advanced by 9
bytes, with writer_len_remaining decreased by exactly 9. -/
theorem append_abc_defg_round_trip (a : Int) (len : Nat) (hlen : 10 ≤ len) :
    ((sb_append_line_or_zeroes (sb_append_line_or_zeroes (sb_create_mmap a len)
        [97, 98, 99]).2 [100, 101, 102, 103]).2.writer_ptr = a + 9 ∧
     (sb_append_line_or_zeroes (sb_append_line_or_zeroes (sb_create_mmap a len)
        [97, 98, 99]).2 [100, 101, 102, 103]).2.writer_len_remaining = len - 9) ∧
    ((sb_append_line_or_zeroes (sb_append_line_or_zeroes (sb_create_posix_memalign a len)
        [97, 98, 99]).2 [100, 101, 102, 103]).2.writer_ptr = a + 9 ∧
     (sb_append_line_or_zeroes (sb_append_line_or_zeroes (sb_create_posix_memalign a len)
        [97, 98, 99]).2 [100, 101, 102, 103]).2.writer_len_remaining = len - 9) ∧
    ((sb_append_line_or_zeroes (sb_append_line_or_zeroes (sb_create_malloc a len)
        [97, 98, 99]).2 [100, 101, 102, 103]).2.writer_ptr = a + 9 ∧
     (sb_append_line_or_zeroes (sb_append_line_or_zeroes (sb_create_malloc a len)
        [97, 98, 99]).2 [100, 101, 102, 103]).2.writer_len_remaining = len - 9) := by
  have h1 := append_abc_defg (sb_create_mmap a len) hlen
  have h2 := append_abc_defg (sb_create_posix_memalign a len) hlen
  have h3 := append_abc_defg (sb_create_malloc a len) hlen
  exact ⟨⟨h1.2.2.1, h1.2.2.2⟩, ⟨h2.2.2.1, h2.2.2.2⟩, ⟨h3.2.2.1, h3.2.2.2⟩⟩

/-- Witness for the amended C5, at address 3 and length 16. -/
theorem append_abc_defg_round_trip_witness :
    ((sb_append_line_or_zeroes (sb_append_line_or_zeroes (sb_create_mmap 3 16)
        [97, 98, 99]).2 [100, 101, 102, 103]).2.writer_ptr = 3 + 9 ∧
     (sb_append_line_or_zeroes (sb_append_line_or_zeroes (sb_create_mmap 3 16)
        [97, 98, 99]).2 [100, 101, 102, 103]).2.writer_len_remaining = 16 - 9) ∧
    ((sb_append_line_or_zeroes (sb_append_line_or_zeroes (sb_create_posix_memalign 3 16)
        [97, 98, 99]).2 [100, 101, 102, 103]).2.writer_ptr = 3 + 9 ∧
     (sb_append_line_or_zeroes (sb_append_line_or_zeroes (sb_create_posix_memalign 3 16)
        [97, 98, 99]).2 [100, 101, 102, 103]).2.writer_len_remaining = 16 - 9) ∧
    ((sb_append_line_or_zeroes (sb_append_line_or_zeroes (sb_create_malloc 3 16)
        [97, 98, 99]).2 [100, 101, 102, 103]).2.writer_ptr = 3 + 9 ∧
     (sb_append_line_or_zeroes (sb_append_line_or_zeroes (sb_create_malloc 3 16)
        [97, 98, 99]).2 [100, 101, 102, 103]).2.writer_len_remaining = 16 - 9) :=
  append_abc_defg_round_trip 3 16 (by decide)

/-- C6: for a heap-allocated buffer and new_len greater than len,
sb_realloc preserves the first len bytes, zero-fills the tail, keeps
the writer cursor at the same offset from the (possibly relocated)
base, and increases writer_len_remaining by exactly new_len - len. -/
theorem sb_realloc_grows (sb : Sharkybuf) (na : Int) (nl : Nat)
    (hstrat : sb.strategy = SHARKYBUF_STRATEGY_MALLOC)
    (hinv : sb_inv sb) (hgrow : sb.len < nl) :
    (sb_realloc sb na nl).data.take sb.len = sb.data ∧
    (sb_realloc sb na nl).data.drop sb.len = List.replicate (nl - sb.len) 0 ∧
    (sb_realloc sb na nl).len = nl ∧
    (sb_realloc sb na nl).data.length = nl ∧
    (sb_realloc sb na nl).addr = na ∧
    (sb_realloc sb na nl).writer_ptr - na = sb.writer_ptr - sb.addr ∧
    (sb_realloc sb na nl).writer_len_remaining
        = sb.writer_len_remaining + (nl - sb.len) := by
  obtain ⟨ha, hlen, hdata⟩ := hinv
  refine ⟨?_, ?_, rfl, ?_, rfl, ?_, rfl⟩
  · dsimp only [sb_realloc]
    exact List.take_left' hdata
  · dsimp only [sb_realloc]
    exact List.drop_left' hdata
  · dsimp only [sb_realloc]
    simp only [List.length_append, List.length_replicate]
    omega
  · dsimp only [sb_realloc]
    omega

/-- Witness for C6: grow a fresh 4-byte heap buffer to 8 bytes while
relocating it from base 0 to base 100. -/
theorem sb_realloc_grows_witness :
    (sb_realloc (sb_create_malloc 0 4) 100 8).data.take (sb_create_malloc 0 4).len
        = (sb_create_malloc 0 4).data ∧
    (sb_realloc (sb_create_malloc 0 4) 100 8).data.drop (sb_create_malloc 0 4).len
        = List.replicate (8 - (sb_create_malloc 0 4).len) 0 ∧
    (sb_realloc (sb_create_malloc 0 4) 100 8).len = 8 ∧
    (sb_realloc (sb_create_malloc 0 4) 100 8).data.length = 8 ∧
    (sb_realloc (sb_create_malloc 0 4) 100 8).addr = 100 ∧
    (sb_realloc (sb_create_malloc 0 4) 100 8).writer_ptr - 100
        = (sb_create_malloc 0 4).writer_ptr - (sb_create_malloc 0 4).addr ∧
    (sb_realloc (sb_create_malloc 0 4) 100 8).writer_len_remaining
        = (sb_create_malloc 0 4).writer_len_remaining + (8 - (sb_create_malloc 0 4).len) :=
  sb_realloc_grows (sb_create_malloc 0 4) 100 8 (by decide) (by decide) (by decide)

/-- Unfolding equation of the append-retry loop at positive fuel. -/
theorem appendRetryLoop_succ (fuel : Nat) (b : Sharkybuf) (l : List Nat) :
    appendRetryLoop (fuel + 1) b l =
      (if (sb_append_line_or_zeroes b l).1 = 0
       then some ([], (sb_append_line_or_zeroes b l).2)
       else
         match appendRetryLoop fuel
             (sb_sendbuf_vmsplice (sb_append_line_or_zeroes b l).2 0).2 l with
         | none => none
         | some (chs, sb2) =>
             some ((sb_sendbuf_vmsplice (sb_append_line_or_zeroes b l).2 0).1 :: chs, sb2)) :=
  rfl

/-- C7: in the producer, the append-retry loop flushes at most once per
candidate: whenever the name line is at most MAX_NAME_LEN - 1 bytes and
the buffer region is one page larger than MAX_NAME_LEN, the append
performed right after an sb_sendbuf_vmsplice replacement necessarily
succeeds, so the retry loop terminates within two iterations with at
most one flush. -/
theorem hamming_retry_bounded (sb : Sharkybuf) (line : List Nat) (page_size : Nat)
    (hinv : sb_inv sb) (hlen : sb.len = page_size)
    (hname : line.length ≤ MAX_NAME_LEN - 1) (hpage : MAX_NAME_LEN < page_size) :
    (sb_append_line_or_zeroes (sb_sendbuf_vmsplice sb 0).2 line).1 = 0 ∧
    ∃ r, appendRetryLoop 2 sb line = some r ∧ r.1.length ≤ 1 := by
  have hmax : MAX_NAME_LEN = 50 := rfl
  have hname49 : line.length ≤ 49 := by omega
  have hpage50 : 50 < page_size := by omega
  have hfresh : ∀ (b : Sharkybuf), b.writer_len_remaining = page_size →
      (sb_append_line_or_zeroes b line).1 = 0 := by
    intro b hb
    rw [sb_append_success_state b line (by rw [hb]; simp; omega)]
  constructor
  · exact hfresh _ hlen
  · by_cases h0 : (sb_append_line_or_zeroes sb line).1 = 0
    · refine ⟨([], (sb_append_line_or_zeroes sb line).2), ?_, by simp⟩
      rw [appendRetryLoop_succ 1 sb line, if_pos h0]
    · have hfr : (sb_append_line_or_zeroes
          (sb_sendbuf_vmsplice (sb_append_line_or_zeroes sb line).2 0).2 line).1 = 0 := by
        apply hfresh
        show (sb_append_line_or_zeroes sb line).2.len = page_size
        rw [sb_append_len, hlen]
      refine ⟨((sb_sendbuf_vmsplice (sb_append_line_or_zeroes sb line).2 0).1 :: [],
               (sb_append_line_or_zeroes
                 (sb_sendbuf_vmsplice (sb_append_line_or_zeroes sb line).2 0).2 line).2),
              ?_, by simp⟩
      rw [appendRetryLoop_succ 1 sb line, if_neg h0,
          appendRetryLoop_succ 0 _ line, if_pos hfr]

/-- Witness for C7: a fresh one-page (64-byte) producer buffer and the
candidate line "bob". -/
theorem hamming_retry_bounded_witness :
    (sb_append_line_or_zeroes (sb_sendbuf_vmsplice (sb_create_mmap 0 64) 0).2
        [98, 111, 98]).1 = 0 ∧
    ∃ r, appendRetryLoop 2 (sb_create_mmap 0 64) [98, 111, 98] = some r ∧ r.1.length ≤ 1 :=
  hamming_retry_bounded (sb_create_mmap 0 64) [98, 111, 98] 64
    (by decide) (by decide) (by decide) (by decide)

/-- C1 counterexample: in the end-to-end run for name "bob" with
maximum edit distance 1 (producer hamming, consumer catlines, one-page
buffers of 256 bytes), the consumer's output does not consist of 78
distinct strings: "bob" itself is produced once per position, so only
76 distinct lines occur. -/
theorem hamming_catlines_bob_not_78_distinct :
    ¬ ((linesOf ((pipelineOutput 1 bobName 256 100).getD [])).dedup.length = 78) := by
  decide

/-- C1 (amended): in the end-to-end run for name "bob" with maximum
edit distance 1 and one-page (here 256-byte) buffers, the consumer
emits exactly the full single-position-substitution enumeration over
a..z for each of the 3 positions, in enumeration order, each line
followed by exactly one newline, with no null bytes and no truncated
lines; the enumeration has 78 lines (76 distinct), and sorting the
output lines gives exactly the sorted enumeration. -/
theorem hamming_catlines_bob_enumeration :
    pipelineOutput 1 bobName 256 100
        = some ((subsEnum bobName).flatMap (fun s => s ++ [10])) ∧
    (subsEnum bobName).length = 78 ∧
    sortLines (linesOf ((pipelineOutput 1 bobName 256 100).getD []))
        = sortLines (subsEnum bobName) ∧
    (linesOf ((pipelineOutput 1 bobName 256 100).getD [])).dedup.length = 76 ∧
    ((pipelineOutput 1 bobName 256 100).getD []).all (fun b => b != 0) = true := by
  decide

/-- C2: evaluation of the arena at the failing input.  After
sdict_sl_init with 4096-byte pages and 84 page-sized record allocations
there are 85 segments; the 85th allocation must append another segment
(the last one is full), the directory guard dir_writer_len_remaining <
sizeof(struct sharkybuf) is false — it still reads 4048 because
sdict_sl_allocnode, unlike sdict_sl_init, never decrements it — so the
directory is not doubled, yet descriptor index 85 lies past the end of
the 4096-byte directory region: 86 descriptors of 48 bytes need 4128
bytes. -/
theorem sdict_directory_overflow_eval :
    (sdictAllocRun 84).sl_sbuflist_entry_ct = 85 ∧
    ((sdictAllocRun 84).sl_sbuflist.getD 84 emptySeg).writer_len_remaining
        < skiplistNodeHeaderSize + 511 * sizeofVoidPtr ∧
    (sdictAllocRun 84).dir_writer_len_remaining = 4048 ∧
    ¬ ((sdictAllocRun 84).dir_writer_len_remaining < sizeofSharkybuf) ∧
    (sdictAllocRun 85).sl_sbuflist_entry_ct = 86 ∧
    (sdictAllocRun 85).dir_len = 4096 ∧
    (sdictAllocRun 85).dir_len
        < (sdictAllocRun 85).sl_sbuflist_entry_ct * sizeofSharkybuf := by
  decide

/-- C8: immediately after sdict_sl_init (4096-byte pages), the head
node has linkptr_ct = SKIPLIST_MAX_LEVELS and dataptr_ct = 0, the
sentinel has linkptr_ct = 0, and every one of the head's forward-link
slots references the sentinel. -/
theorem sdict_sl_init_skiplist_shape :
    (sdict_sl_init 4096).sl_headnode = some 0 ∧
    (sdict_sl_init 4096).sl_sentinel = some 1 ∧
    ((sdict_sl_init 4096).store.getD 0 default).linkptr_ct = SKIPLIST_MAX_LEVELS ∧
    ((sdict_sl_init 4096).store.getD 0 default).dataptr_ct = 0 ∧
    ((sdict_sl_init 4096).store.getD 1 default).linkptr_ct = 0 ∧
    ((sdict_sl_init 4096).store.getD 0 default).ptr
        = List.replicate SKIPLIST_MAX_LEVELS (some 1) := by
  decide

/-- C10: with exactly two program arguments (argc = 3) main never
assigns dictpath before the child evaluates if (dictpath): the parse
leaves the assigned flag false, and the role the child selects depends
on the indeterminate initial value of the variable, not on the
program's inputs — two different stack-garbage values select the two
different roles. -/
theorem main_dictpath_uninitialized :
    (∀ g : Int, (mainParseArgs 3 0 g).map MainArgState.dictpathAssigned = some false) ∧
    (mainParseArgs 3 0 0).map childRole ≠ (mainParseArgs 3 0 1).map childRole := by
  constructor
  · intro g
    rfl
  · decide
